import Mathlib

/-!
Verification development for the envproof environment-variable validation
library.  The TypeScript sources are shallowly embedded: JavaScript runtime
values become the inductive `JsVal` (with an explicit `frozen` flag on objects
and arrays so that `Object.freeze` and write rejection can be reasoned about),
the ambient filesystem consulted by path refinements becomes an explicit
`FsState` argument, schema classes become `AnySchema` records whose virtual
methods are stored as functions of the internal `_def`, exactly mirroring the
prototype-clone builder pattern of `schema/base.ts`.  JavaScript IEEE-754
numbers are modelled as exact rationals; every numeric value appearing in the
theorems below is exactly representable as a double, so no rounding behaviour
is lost on the statements proved here.
-/

namespace EnvProof

/-- JavaScript runtime values as produced and consumed by the library.
Objects and arrays carry a `frozen` flag modelling `Object.freeze`
(`true` = frozen, writes rejected); fresh objects are created unfrozen. -/
inductive JsVal where
  | undef : JsVal
  | null : JsVal
  | str (s : String) : JsVal
  | num (q : ℚ) : JsVal
  | bool (b : Bool) : JsVal
  | obj (frozen : Bool) (fields : List (String × JsVal)) : JsVal
  | arr (frozen : Bool) (elems : List JsVal) : JsVal

/-- Snapshot of the ambient filesystem consulted by the `path` schema's
refinements (`fs.accessSync` / `fs.statSync` in `schema/path.ts`).  The
fail-closed `try/catch` wrappers of the source are already folded into the
boolean answers: a check that would throw reports `false`. -/
structure FsState where
  accessOk : String → Bool
  statFile : String → Bool
  statDir : String → Bool
  readOk : String → Bool
  writeOk : String → Bool

/-- Result of coercing a raw string to a typed value (`CoercionResult<T>` in
`types.ts`): either `success: true, value` or `success: false, error`. -/
inductive CoercionResult where
  | success (value : JsVal) : CoercionResult
  | failure (error : String) : CoercionResult

/-- A refinement rule (`ValidationRule` in `types.ts`).  The predicate takes
the ambient filesystem snapshot explicitly; rules of every schema except the
filesystem-touching `path` refinements ignore it. -/
structure ValidationRule where
  name : String
  message : String
  validate : FsState → JsVal → Bool

/-- Schema metadata (`SchemaMetadata` in `types.ts`).  The source field
`example` is called `exampleText` here because `example` is a Lean keyword. -/
structure SchemaMetadata where
  isSecret : Bool
  description : Option String := none
  exampleText : Option String := none

/-- Tag identifying the schema variant (`SchemaType` in `types.ts`). -/
inductive SchemaType where
  | string | number | boolean | enum | url | json | array | duration | path
  deriving DecidableEq

/-- Internal schema definition (`SchemaDefinition` in `types.ts`).  In the
source `defaultValue?: T` is an optional property and the engine tests
`def.defaultValue !== undefined`; accordingly the absence of a default is
represented by `JsVal.undef`, exactly as in JavaScript. -/
structure SchemaDefinition where
  type : SchemaType
  isOptional : Bool
  defaultValue : JsVal := .undef
  metadata : SchemaMetadata
  rules : List ValidationRule
  coerce : FsState → String → CoercionResult

/-- A field schema viewed through the common contract (`AnySchema` in
`types.ts`).  The virtual methods `getTypeDescription` / `getDefaultExample`
are stored as functions of the current `_def`, which is exactly the semantics
of the prototype-clone builder pattern in `schema/base.ts`: builder methods
replace `_def` and keep the (prototype) methods, which then observe the
updated definition. -/
structure AnySchema where
  _def : SchemaDefinition
  typeDescFn : SchemaDefinition → String
  defaultExampleFn : SchemaDefinition → String

/-- Method `getTypeDescription()` of the schema classes. -/
def AnySchema.getTypeDescription (s : AnySchema) : String :=
  s.typeDescFn s._def

/-- Method `getExample()` of `BaseSchema` (`schema/base.ts` line 118):
the explicit metadata example if set, else the variant default example. -/
def AnySchema.getExample (s : AnySchema) : String :=
  match s._def.metadata.exampleText with
  | some e => e
  | none => s.defaultExampleFn s._def

/-- Builder `optional()` of `BaseSchema`: clone with `isOptional: true`. -/
def AnySchema.optional (s : AnySchema) : AnySchema :=
  { s with _def := { s._def with isOptional := true } }

/-- Builder `default(value)` of `BaseSchema`: clone with `isOptional: false`
and `defaultValue: value`.  Note the source stores the given value verbatim
(`schema/base.ts` lines 60-65); no variant-specific parsing happens here. -/
def AnySchema.default (s : AnySchema) (value : JsVal) : AnySchema :=
  { s with _def := { s._def with isOptional := false, defaultValue := value } }

/-- Builder `secret()` of `BaseSchema`: clone with `metadata.isSecret: true`. -/
def AnySchema.secret (s : AnySchema) : AnySchema :=
  { s with _def :=
    { s._def with metadata := { s._def.metadata with isSecret := true } } }

/-- Builder `description(text)` of `BaseSchema`. -/
def AnySchema.description (s : AnySchema) (text : String) : AnySchema :=
  { s with _def :=
    { s._def with metadata := { s._def.metadata with description := some text } } }

/-- Builder `example(value)` of `BaseSchema` (named `withExample` because
`example` is a Lean keyword). -/
def AnySchema.withExample (s : AnySchema) (value : String) : AnySchema :=
  { s with _def :=
    { s._def with metadata := { s._def.metadata with exampleText := some value } } }

/-- Builder `refine(validate, message, name)` of `BaseSchema`: clone with the
new rule appended to the existing rule list. -/
def AnySchema.refine (s : AnySchema) (validate : FsState → JsVal → Bool)
    (message : String) (name : String) : AnySchema :=
  { s with _def :=
    { s._def with rules := s._def.rules ++ [{ name, message, validate }] } }

/-! ## String utilities

The JavaScript string operations used by the sources (`trim`, `toLowerCase`,
`split`) are re-implemented on the character list so that all definitions are
structurally recursive and kernel-reducible.  Whitespace is modelled as the
ASCII whitespace characters, which covers every input appearing in this
development. -/

/-- Whitespace test used for `String.prototype.trim` and the regex class
`\s` (ASCII fragment). -/
def isJsWhitespace (c : Char) : Bool :=
  c = ' ' ∨ c = '\t' ∨ c = '\n' ∨ c = '\r' ∨ c = '\x0b' ∨ c = '\x0c'

/-- Model of `String.prototype.trim()`. -/
def jsTrim (s : String) : String :=
  String.mk (((s.data.dropWhile isJsWhitespace).reverse.dropWhile
    isJsWhitespace).reverse)

/-- Lowercase a single ASCII character (`String.prototype.toLowerCase` acts
characterwise on the ASCII inputs relevant here). -/
def lowerChar (c : Char) : Char :=
  if 'A' ≤ c ∧ c ≤ 'Z' then Char.ofNat (c.toNat + 32) else c

/-- Model of `String.prototype.toLowerCase()` on ASCII strings. -/
def jsToLower (s : String) : String :=
  String.mk (s.data.map lowerChar)

/-- Helper for `String.prototype.split`: splits a character list on a
non-empty separator, left to right, fuel-recursively (the fuel is the length
of the list, which bounds the number of steps). -/
def splitCharsAux (sep : List Char) : Nat → List Char → List Char → List (List Char)
  | 0, l, acc => [acc.reverse ++ l]
  | fuel + 1, l, acc =>
    match l with
    | [] => [acc.reverse]
    | c :: rest =>
      if sep.isPrefixOf (c :: rest) then
        acc.reverse :: splitCharsAux sep fuel ((c :: rest).drop sep.length) []
      else
        splitCharsAux sep fuel rest (c :: acc)

/-- Model of `String.prototype.split(separator)`.  An empty separator splits
into single characters, as in JavaScript. -/
def jsSplit (sep : String) (value : String) : List String :=
  if sep = "" then value.data.map (fun c => String.mk [c])
  else (splitCharsAux sep.data (value.data.length + 1) value.data []).map String.mk

/-- First run of decimal digits in a string, as matched by the regex `/\d+/`
(used by `StringSchema.getTypeDescription`). -/
def firstDigitRun : List Char → Option String
  | [] => none
  | c :: rest =>
    if c.isDigit then some (String.mk (c :: rest.takeWhile Char.isDigit))
    else firstDigitRun rest

/-! ## String schema (`schema/string.ts`) -/

/-- Coercion of the string schema: the identity (`coerceString`). -/
def coerceString (value : String) : CoercionResult :=
  .success (.str value)

/-- Loop of `StringSchema.getTypeDescription`: scans the rules, collecting
length annotations and returning early for `email` / `uuid`.  The digit
extraction `rule.message.match(/\d+/)?.[0]` yields the string "undefined"
inside the template literal when the message has no digits, which the
`Option.getD` below reproduces. -/
def stringTypeDescGo : List ValidationRule → List String → String
  | [], parts => if parts.length > 1 then String.intercalate ", " parts else "string"
  | r :: rest, parts =>
    if r.name = "minLength" then
      stringTypeDescGo rest
        (parts ++ ["min " ++ (firstDigitRun r.message.data).getD "undefined" ++ " chars"])
    else if r.name = "maxLength" then
      stringTypeDescGo rest
        (parts ++ ["max " ++ (firstDigitRun r.message.data).getD "undefined" ++ " chars"])
    else if r.name = "email" then "email"
    else if r.name = "uuid" then "UUID"
    else stringTypeDescGo rest parts

/-- Method `getTypeDescription()` of `StringSchema`. -/
def stringTypeDesc (d : SchemaDefinition) : String :=
  stringTypeDescGo d.rules ["string"]

/-- Method `getDefaultExample()` of `StringSchema`. -/
def stringDefaultExample (d : SchemaDefinition) : String :=
  if (d.rules.find? (fun r => r.name = "email")).isSome then "user@example.com"
  else if (d.rules.find? (fun r => r.name = "uuid")).isSome then
    "550e8400-e29b-41d4-a716-446655440000"
  else "your_value_here"

/-- The schema value built by the factory `string()` (`new StringSchema()`). -/
def stringSchema : AnySchema :=
  { _def :=
      { type := .string
        isOptional := false
        metadata := { isSecret := false }
        rules := []
        coerce := fun _ value => coerceString value }
    typeDescFn := stringTypeDesc
    defaultExampleFn := stringDefaultExample }

/-- Builder `minLength(min)` of `StringSchema`: rule rejecting values shorter
than `min` characters.  The predicate `value.length >= min` is evaluated on
string values; a non-string can never reach a string rule. -/
def StringSchema.minLength (s : AnySchema) (min : Nat) : AnySchema :=
  s.refine
    (fun _ v => match v with
      | .str str => decide (str.length ≥ min)
      | _ => false)
    ("Must be at least " ++ toString min ++ " characters")
    "minLength"

/-- Builder `nonEmpty()` of `StringSchema`: rule requiring
`value.trim().length > 0`. -/
def StringSchema.nonEmpty (s : AnySchema) : AnySchema :=
  s.refine
    (fun _ v => match v with
      | .str str => decide ((jsTrim str).length > 0)
      | _ => false)
    "Must not be empty"
    "nonEmpty"

/-! ## Error model (`validation/errors.ts`, `types.ts`)

The `ValidationError` field `variable` is called `varName` here because
`variable` is a Lean keyword, and `example` is called `exampleText`. -/

/-- Reason for a validation failure (`ValidationErrorReason`).  The taxonomy
includes the `unknown` and `cross_field` reasons referenced by the library's
public API and tests. -/
inductive Reason where
  | missing | empty | invalid_type | invalid_value | parse_error
  | unknown | cross_field
  deriving DecidableEq

/-- Individual validation error (`ValidationError` in `types.ts`). -/
structure ValidationError where
  varName : String
  reason : Reason
  message : String
  expected : String
  received : Option String := none
  exampleText : Option String := none
  isSecret : Bool
  deriving DecidableEq

/-- Error creator `createMissingError` (`validation/errors.ts`). -/
def createMissingError (varName : String) (schema : AnySchema) : ValidationError :=
  { varName
    reason := .missing
    message := "Required variable is not set"
    expected := schema.getTypeDescription
    exampleText := some schema.getExample
    isSecret := schema._def.metadata.isSecret }

/-- Error creator `createEmptyError` (`validation/errors.ts`). -/
def createEmptyError (varName : String) (schema : AnySchema) : ValidationError :=
  { varName
    reason := .empty
    message := "Variable is set but empty"
    expected := schema.getTypeDescription
    exampleText := some schema.getExample
    isSecret := schema._def.metadata.isSecret }

/-- Error creator `createTypeError` (`validation/errors.ts`): coercion
failure.  Only `received` is redacted for secret fields; the `example` field
is filled with `schema.getExample()` verbatim. -/
def createTypeError (varName : String) (schema : AnySchema) (received : String)
    (coercionError : String) : ValidationError :=
  { varName
    reason := .invalid_type
    message := coercionError
    expected := schema.getTypeDescription
    received := some (if schema._def.metadata.isSecret then "[REDACTED]" else received)
    exampleText := some schema.getExample
    isSecret := schema._def.metadata.isSecret }

/-- Error creator `createValueError` (`validation/errors.ts`): refinement
rule failure.  As in `createTypeError`, only `received` is redacted. -/
def createValueError (varName : String) (schema : AnySchema) (received : String)
    (ruleMessage : String) : ValidationError :=
  { varName
    reason := .invalid_value
    message := ruleMessage
    expected := schema.getTypeDescription
    received := some (if schema._def.metadata.isSecret then "[REDACTED]" else received)
    exampleText := some schema.getExample
    isSecret := schema._def.metadata.isSecret }

/-- Modelled from the spec: `createCrossFieldError`, exported by
`validation/index.ts` and called by `create-env.ts`, whose body is not among
the provided sources.  Per spec section 4.4 each cross-field issue becomes a
`cross_field`-reason error with the given message and variable name
(default `"_schema"`). -/
def createCrossFieldError (message : String) (varName : String) : ValidationError :=
  { varName
    reason := .cross_field
    message
    expected := ""
    isSecret := false }

/-! ## Validation engine (`validation/engine.ts`) -/

/-- Outcome of validating a single variable: the source function
`validateVariable` returns `{ value?: unknown; error?: ValidationError }`. -/
inductive VarOutcome where
  | ok (value : JsVal) : VarOutcome
  | err (e : ValidationError) : VarOutcome

/-- Missing/empty branch of `validateVariable` (`engine.ts` lines 36-53):
optional resolves to `undefined` first; otherwise a present default is used;
otherwise a `missing` (absent) or `empty` (present empty string) error.  The
test `def.defaultValue !== undefined` is the match on `JsVal.undef`. -/
def resolveAbsent (name : String) (schema : AnySchema) (wasMissing : Bool) : VarOutcome :=
  if schema._def.isOptional then .ok .undef
  else
    match schema._def.defaultValue with
    | .undef =>
      if wasMissing then .err (createMissingError name schema)
      else .err (createEmptyError name schema)
    | d => .ok d

/-- Rule loop of `validateVariable` (`engine.ts` lines 64-69): rules run in
registration order; the first failing rule produces an `invalid_value` error
for the field. -/
def runRules (fs : FsState) (name : String) (schema : AnySchema) (raw : String)
    (v : JsVal) : List ValidationRule → VarOutcome
  | [] => .ok v
  | r :: rest =>
    if r.validate fs v then runRules fs name schema raw v rest
    else .err (createValueError name schema raw r.message)

/-- The source function `validateVariable` (`engine.ts` lines 28-72). -/
def validateVariable (fs : FsState) (name : String) (value : Option String)
    (schema : AnySchema) : VarOutcome :=
  match value with
  | none => resolveAbsent name schema true
  | some "" => resolveAbsent name schema false
  | some raw =>
    match schema._def.coerce fs raw with
    | .failure msg => .err (createTypeError name schema raw msg)
    | .success v => runRules fs name schema raw v schema._def.rules

/-- JavaScript truthiness of an optional string (`undefined` and `""` are
falsy). -/
def strTruthy : Option String → Bool
  | none => false
  | some s => !(s = "")

/-- Lookup key computation of the engine loop (`engine.ts` line 90):
`prefix ? prefix + key : key`, with JavaScript truthiness of the prefix. -/
def envKeyOf (prefixStr : Option String) (key : String) : String :=
  match prefixStr with
  | some p => if p = "" then key else p ++ key
  | none => key

/-- A cross-field issue as returned by a `crossValidate` callback: either a
plain message string or `{ message, variable? }`. -/
inductive CrossIssue where
  | msg (message : String) : CrossIssue
  | detailed (message : String) (varName : Option String) : CrossIssue

/-- Options accepted by `validate` / `createEnv` (`EnvOptions`).  Source
field names `prefix` and `stripPrefix` are rendered as `prefixStr` and
`stripFlag`.  `strict` and `strictIgnore` are part of the public options
(they are exercised by the repository's validation tests); the engine body
in `validation/engine.ts` never reads them. -/
structure EnvOptions where
  prefixStr : Option String := none
  stripFlag : Bool := false
  strict : Bool := false
  strictIgnore : List String := []
  environment : Option String := none
  requireInProduction : Option (List String) := none
  optionalInDevelopment : Option (List String) := none
  crossValidate : Option (JsVal → List CrossIssue) := none

/-- One iteration of the engine loop (`engine.ts` lines 88-105) applied to a
single schema entry: compute the lookup key, read the source, validate, and
deliver either the error (with `variable` reassigned per `stripPrefix`) or
the data entry.  Note the source's output-key computation on line 102 reads
`stripPrefix && prefix ? key : key` — both branches are the bare `key`. -/
def validateFields (fs : FsState) (source : String → Option String)
    (options : EnvOptions) : List (String × AnySchema) →
    List ValidationError × List (String × JsVal)
  | [] => ([], [])
  | (key, fieldSchema) :: rest =>
    let envKey := envKeyOf options.prefixStr key
    let value := source envKey
    let result := validateVariable fs envKey value fieldSchema
    let acc := validateFields fs source options rest
    match result with
    | .err e =>
      ({ e with varName := if options.stripFlag then key else envKey } :: acc.1, acc.2)
    | .ok v =>
      let outputKey := if options.stripFlag ∧ strTruthy options.prefixStr then key else key
      (acc.1, (outputKey, v) :: acc.2)

/-- Complete validation result (`ValidationResult<T>` in `types.ts`). -/
structure ValidationResult where
  success : Bool
  data : Option JsVal
  errors : List ValidationError

/-- The source function `validate` (`engine.ts` lines 78-112): run every
schema field through `validateVariable`, collect all errors, and return
failure with the full list or success with the assembled data object.  The
data object is a fresh (unfrozen) JavaScript object. -/
def validate (fs : FsState) (schema : List (String × AnySchema))
    (source : String → Option String) (options : EnvOptions) : ValidationResult :=
  let acc := validateFields fs source options schema
  if acc.1.length > 0 then
    { success := false, data := none, errors := acc.1 }
  else
    { success := true, data := some (.obj false acc.2), errors := [] }

/-! ## Number schema (`schema/number.ts`)

The JavaScript `Number(string)` conversion is modelled on its grammar:
optional sign with a decimal literal (integer part, optional fraction,
optional exponent) or `Infinity`, and unsigned radix literals `0x`/`0o`/`0b`.
Values are exact rationals. -/

/-- Numeric value of a list of decimal digit characters. -/
def digitsToNat (l : List Char) : Nat :=
  l.foldl (fun a c => a * 10 + (c.toNat - 48)) 0

/-- Value of a decimal literal with integer part `ip` and fraction part `fp`. -/
def decValue (ip fp : List Char) : ℚ :=
  if fp = [] then ((digitsToNat ip : ℤ) : ℚ)
  else (digitsToNat ip : ℚ) + (digitsToNat fp : ℚ) / (10 : ℚ) ^ fp.length

/-- Apply a decimal exponent to a value. -/
def applyExp (q : ℚ) (neg : Bool) (e : Nat) : ℚ :=
  if neg then q / (10 : ℚ) ^ e else q * (10 : ℚ) ^ e

/-- Parse an exponent body: optional sign followed by at least one digit. -/
def parseExpDigits (l : List Char) : Option (Bool × Nat × List Char) :=
  match l with
  | '+' :: t =>
    let d := t.takeWhile Char.isDigit
    if d = [] then none else some (false, digitsToNat d, t.dropWhile Char.isDigit)
  | '-' :: t =>
    let d := t.takeWhile Char.isDigit
    if d = [] then none else some (true, digitsToNat d, t.dropWhile Char.isDigit)
  | _ =>
    let d := l.takeWhile Char.isDigit
    if d = [] then none else some (false, digitsToNat d, l.dropWhile Char.isDigit)

/-- Parse the longest unsigned decimal literal that is a prefix of the input:
`digits [. digits] [e(+|-)digits]`, also accepting `.digits` and `digits.`.
Returns the value and the unconsumed remainder, or `none` when no prefix is
a decimal literal.  An ill-formed exponent part is rolled back, as in the
longest-match semantics of the JavaScript grammar. -/
def parseDecPrefix (l : List Char) : Option (ℚ × List Char) :=
  let ip := l.takeWhile Char.isDigit
  let r1 := l.dropWhile Char.isDigit
  let fr := match r1 with
    | '.' :: t => (t.takeWhile Char.isDigit, t.dropWhile Char.isDigit)
    | _ => ([], r1)
  if ip = [] ∧ fr.1 = [] then none
  else
    let base := decValue ip fr.1
    match fr.2 with
    | c :: t =>
      if c = 'e' ∨ c = 'E' then
        match parseExpDigits t with
        | some (neg, e, r3) => some (applyExp base neg e, r3)
        | none => some (base, fr.2)
      else some (base, fr.2)
    | [] => some (base, [])

/-- Result of the JavaScript `Number(string)` conversion. -/
inductive JsNumParse where
  | nan : JsNumParse
  | infinite (neg : Bool) : JsNumParse
  | val (q : ℚ) : JsNumParse

/-- Negation of a `Number` conversion result (for a leading minus sign). -/
def JsNumParse.negate : JsNumParse → JsNumParse
  | .nan => .nan
  | .infinite b => .infinite !b
  | .val q => .val (-q)

/-- Value of a digit character in a radix literal. -/
def radixDigitVal (c : Char) : Option Nat :=
  if '0' ≤ c ∧ c ≤ '9' then some (c.toNat - 48)
  else if 'a' ≤ c ∧ c ≤ 'f' then some (c.toNat - 87)
  else if 'A' ≤ c ∧ c ≤ 'F' then some (c.toNat - 55)
  else none

/-- Value of a non-empty all-valid digit string in the given base. -/
def radixValue (base : Nat) (maxDigit : Nat) (l : List Char) : Option Nat :=
  if l = [] then none
  else l.foldl
    (fun acc c => acc.bind fun a =>
      (radixDigitVal c).bind fun d =>
        if d < maxDigit then some (a * base + d) else none)
    (some 0)

/-- Unsigned part of `Number(string)`: `Infinity`, a radix literal (only when
no sign preceded it), or a full-string decimal literal. -/
def jsNumberUnsigned (allowRadix : Bool) (l : List Char) : JsNumParse :=
  if l = "Infinity".data then .infinite false
  else
    match l with
    | '0' :: c :: rest =>
      if allowRadix ∧ (c = 'x' ∨ c = 'X') then
        match radixValue 16 16 rest with
        | some n => .val (n : ℚ)
        | none => .nan
      else if allowRadix ∧ (c = 'o' ∨ c = 'O') then
        match radixValue 8 8 rest with
        | some n => .val (n : ℚ)
        | none => .nan
      else if allowRadix ∧ (c = 'b' ∨ c = 'B') then
        match radixValue 2 2 rest with
        | some n => .val (n : ℚ)
        | none => .nan
      else
        match parseDecPrefix l with
        | some (q, []) => .val q
        | _ => .nan
    | _ =>
      match parseDecPrefix l with
      | some (q, []) => .val q
      | _ => .nan

/-- Model of `Number(s)` for an already-trimmed string `s` (the number schema
trims before converting; `Number("")` is `0`). -/
def jsNumber (s : String) : JsNumParse :=
  match s.data with
  | [] => .val 0
  | '+' :: rest => jsNumberUnsigned false rest
  | '-' :: rest => (jsNumberUnsigned false rest).negate
  | l => jsNumberUnsigned true l

/-- Coercion `coerceNumber` of `schema/number.ts`: trim, reject the empty
string, convert with `Number`, reject `NaN` and non-finite values. -/
def coerceNumber (value : String) : CoercionResult :=
  let trimmed := jsTrim value
  if trimmed = "" then .failure "Cannot convert empty string to number"
  else
    match jsNumber trimmed with
    | .nan => .failure ("Cannot convert \"" ++ value ++ "\" to number")
    | .infinite _ => .failure ("Value \"" ++ value ++ "\" is not a finite number")
    | .val q => .success (.num q)

/-- The schema value built by the factory `number()` (`new NumberSchema()`).
The refinement builders (`integer`, `min`, `max`, `port`, ...) and the
instance fields they set for the dynamic type description are not used by any
claim and are not modelled; for the plain instance `getTypeDescription()` is
`"number"` and `getDefaultExample()` is `"3.14"`. -/
def numberSchema : AnySchema :=
  { _def :=
      { type := .number
        isOptional := false
        metadata := { isSecret := false }
        rules := []
        coerce := fun _ value => coerceNumber value }
    typeDescFn := fun _ => "number"
    defaultExampleFn := fun _ => "3.14" }

/-! ## Duration schema (`schema/duration.ts`) -/

/-- Unit multiplier table `DURATION_UNITS` (milliseconds per unit). -/
def durationUnits (u : String) : Option ℚ :=
  match u with
  | "ms" => some 1
  | "s" => some 1000
  | "sec" => some 1000
  | "second" => some 1000
  | "seconds" => some 1000
  | "m" => some 60000
  | "min" => some 60000
  | "minute" => some 60000
  | "minutes" => some 60000
  | "h" => some 3600000
  | "hr" => some 3600000
  | "hour" => some 3600000
  | "hours" => some 3600000
  | "d" => some 86400000
  | "day" => some 86400000
  | "days" => some 86400000
  | "w" => some 604800000
  | "week" => some 604800000
  | "weeks" => some 604800000
  | _ => none

/-- Decimal digit characters of a natural number (the fuel bounds the digit
count and keeps the recursion structural). -/
def natToCharsAux : Nat → Nat → List Char
  | 0, _ => []
  | _ + 1, 0 => []
  | fuel + 1, n => natToCharsAux fuel (n / 10) ++ [Char.ofNat (48 + n % 10)]

/-- Decimal string of a natural number. -/
def natToDecString (n : Nat) : String :=
  if n = 0 then "0" else String.mk (natToCharsAux (n + 1) n)

/-- Least exponent `k ≤ 40` with `den ∣ 10 ^ k`, if any. -/
def leastPow10Go (den : Nat) : Nat → Nat → Option Nat
  | 0, _ => none
  | fuel + 1, k => if (10 ^ k) % den = 0 then some k else leastPow10Go den fuel (k + 1)

/-- Model of `String(n)` for a finite JavaScript number, in the plain-decimal
range (no exponent notation, which only appears for magnitudes at or above
1e21 or below 1e-6; no number in this development reaches it).  Rationals
whose denominator divides no power of ten (which cannot arise from the
decimal parsers here) print as the empty string. -/
def jsNumToString (q : ℚ) : String :=
  let sign := if q < 0 then "-" else ""
  let n := q.num.natAbs
  let den := q.den
  if den = 1 then sign ++ natToDecString n
  else
    match leastPow10Go den 41 0 with
    | none => ""
    | some k =>
      let scaled := n * (10 ^ k / den)
      let ipart := scaled / 10 ^ k
      let fpart := scaled % 10 ^ k
      let fchars := (natToDecString fpart).data
      sign ++ natToDecString ipart ++ "." ++
        String.mk (List.replicate (k - fchars.length) '0' ++ fchars)

/-- Model of `parseFloat(s)` for an already-trimmed string, returning the
finite value of the longest decimal-literal prefix (`none` models `NaN`).
The `Infinity` production is folded into `none`: under the duration parser's
lowercased input it can never pass the `String(n) === trimmed` round-trip
check, so both behave identically there. -/
def jsParseFloat (s : String) : Option ℚ :=
  match s.data with
  | '+' :: rest => (parseDecPrefix rest).map Prod.fst
  | '-' :: rest => (parseDecPrefix rest).map (fun p => -p.1)
  | l => (parseDecPrefix l).map Prod.fst

/-- Tail of the duration regex `^(\d+(\.\d+)?)\s*([a-z]+)$` after the numeric
part: optional whitespace, a non-empty lowercase unit reaching the end of the
string, then the unit-table lookup and multiplication. -/
def parseDurationUnitCont (ip fp r : List Char) : Option ℚ :=
  let r3 := r.dropWhile isJsWhitespace
  let unit := r3.takeWhile (fun c => 'a' ≤ c ∧ c ≤ 'z')
  let r4 := r3.dropWhile (fun c => 'a' ≤ c ∧ c ≤ 'z')
  if unit = [] ∨ r4 ≠ [] then none
  else
    match durationUnits (String.mk unit) with
    | none => none
    | some mult => some (decValue ip fp * mult)

/-- Numeric part of the duration regex: one or more digits, optionally a dot
followed by one or more digits. -/
def parseDurationUnitBranch (l : List Char) : Option ℚ :=
  let ip := l.takeWhile Char.isDigit
  let r1 := l.dropWhile Char.isDigit
  if ip = [] then none
  else
    match r1 with
    | '.' :: t =>
      let fp := t.takeWhile Char.isDigit
      if fp = [] then none
      else parseDurationUnitCont ip fp (t.dropWhile Char.isDigit)
    | _ => parseDurationUnitCont ip [] r1

/-- The source function `parseDuration` (`schema/duration.ts` lines 35-58):
trim and lowercase; if `parseFloat` yields a number whose canonical string
form is the whole input, it is taken as milliseconds; otherwise the
`<number><unit>` form is tried.  (The `isNaN(num)` re-check of the regex
branch is vacuous — the matched digits always parse — and is omitted.) -/
def parseDuration (value : String) : Option ℚ :=
  let trimmed := jsToLower (jsTrim value)
  match jsParseFloat trimmed with
  | some q =>
    if jsNumToString q = trimmed then some q
    else parseDurationUnitBranch trimmed.data
  | none => parseDurationUnitBranch trimmed.data

/-- Coercion `coerceDuration` of `schema/duration.ts`: parse failure and
negative results are coercion failures. -/
def coerceDuration (value : String) : CoercionResult :=
  match parseDuration value with
  | none => .failure "Invalid duration format. Use formats like: 100ms, 5s, 30m, 1h, 7d"
  | some ms =>
    if ms < 0 then .failure "Duration must be non-negative"
    else .success (.num ms)

/-- The schema value built by the factory `duration()` (`new
DurationSchema()`).  `DurationSchema` does not override `default`, so
`.default(value)` on it is `BaseSchema.default`, which stores the given
value verbatim. -/
def durationSchema : AnySchema :=
  { _def :=
      { type := .duration
        isOptional := false
        metadata := { isSecret := false }
        rules := []
        coerce := fun _ value => coerceDuration value }
    typeDescFn := fun _ => "duration (e.g., 1h, 30m, 5s)"
    defaultExampleFn := fun _ => "30s" }

/-! ## Array schema (`schema/array.ts`) -/

/-- First rule of the item schema failing on a value, if any. -/
def firstFailingRule (fs : FsState) (v : JsVal) (rules : List ValidationRule) :
    Option ValidationRule :=
  rules.find? (fun r => ! r.validate fs v)

/-- Element loop of `ArraySchema.coerceArray`: coerce each piece with the
item schema and run the item schema's rules; the first failure aborts with
an error naming the element index. -/
def coerceItemsAux (fs : FsState) (itemSchema : AnySchema) :
    Nat → List String → Except String (List JsVal)
  | _, [] => .ok []
  | idx, item :: rest =>
    match itemSchema._def.coerce fs item with
    | .failure e => .error ("Invalid item at index " ++ toString idx ++ ": " ++ e)
    | .success v =>
      match firstFailingRule fs v itemSchema._def.rules with
      | some r => .error ("Invalid item at index " ++ toString idx ++ ": " ++ r.message)
      | none =>
        match coerceItemsAux fs itemSchema (idx + 1) rest with
        | .error e => .error e
        | .ok vs => .ok (v :: vs)

/-- The source method `ArraySchema.coerceArray`: split on the separator, trim
each piece, drop empty pieces, then coerce and validate each remaining piece.
The result is a fresh (unfrozen) JavaScript array. -/
def coerceArray (itemSchema : AnySchema) (separatorChar : String)
    (fs : FsState) (value : String) : CoercionResult :=
  let items := ((jsSplit separatorChar value).map jsTrim).filter (fun s => s.length > 0)
  match coerceItemsAux fs itemSchema 0 items with
  | .error e => .failure e
  | .ok vs => .success (.arr false vs)

/-- The schema value built by the factory `array(itemSchema)` with the
default separator `","`.  The `separator`, `minLength`, `maxLength` and
`nonEmpty` builders are not used by any claim and are not modelled. -/
def arraySchema (itemSchema : AnySchema) : AnySchema :=
  { _def :=
      { type := .array
        isOptional := false
        metadata := { isSecret := false }
        rules := []
        coerce := coerceArray itemSchema "," }
    typeDescFn := fun _ => "array of " ++ itemSchema.getTypeDescription
    defaultExampleFn := fun _ => itemSchema.getExample ++ "," ++ itemSchema.getExample }

/-! ## Path schema (`schema/path.ts`) -/

/-- One step of the segment normalization of `path.posix.normalize`. -/
def normSegStep (isAbs : Bool) (stack : List String) (seg : String) : List String :=
  if seg = ".." then
    match stack with
    | top :: rest => if top ≠ ".." then rest else ".." :: stack
    | [] => if isAbs then [] else [".."]
  else seg :: stack

/-- Model of `path.normalize` (posix flavour) used by the path coercion:
resolves `.` and `..` segments and collapses repeated separators, keeping a
trailing separator.  The claims do not depend on its fine structure. -/
def pathNormalize (p : String) : String :=
  if p = "" then "."
  else
    let isAbs := p.data.head? = some '/'
    let hasTrail := p.data.getLast? = some '/'
    let segs := (jsSplit "/" p).filter (fun s => s ≠ "" ∧ s ≠ ".")
    let core := String.intercalate "/" ((segs.foldl (normSegStep isAbs) []).reverse)
    if isAbs then
      if core = "" then "/" else "/" ++ core ++ (if hasTrail then "/" else "")
    else
      if core = "" then "." else core ++ (if hasTrail then "/" else "")

/-- Coercion `coercePath` of `schema/path.ts`: trim, reject the empty string,
normalize separators; no filesystem access here. -/
def coercePath (value : String) : CoercionResult :=
  let trimmed := jsTrim value
  if trimmed.length = 0 then .failure "Path cannot be empty"
  else .success (.str (pathNormalize trimmed))

/-- The schema value built by the factory `path()` (`new PathSchema()`).  For
the plain instance `getTypeDescription()` is `"path"` (the rule scan in the
source adds modifiers for `exists`/`isFile`/`isDirectory` rules). -/
def pathTypeDesc (d : SchemaDefinition) : String :=
  let modifiers :=
    (d.rules.filterMap fun r =>
      if r.name = "isFile" then some "file"
      else if r.name = "isDirectory" then some "directory"
      else if r.name = "exists" then some "existing"
      else none)
  if modifiers.length > 0 then "path (" ++ String.intercalate ", " modifiers ++ ")"
  else "path"

/-- The schema value built by the factory `path()`. -/
def pathSchema : AnySchema :=
  { _def :=
      { type := .path
        isOptional := false
        metadata := { isSecret := false }
        rules := []
        coerce := fun _ value => coercePath value }
    typeDescFn := pathTypeDesc
    defaultExampleFn := fun _ => "/path/to/file" }

/-- Builder `exists()` of `PathSchema`: filesystem-touching rule
(`fs.accessSync`, fail closed). -/
def PathSchema.checkExists (s : AnySchema) : AnySchema :=
  s.refine
    (fun fs v => match v with | .str p => fs.accessOk p | _ => false)
    "Path does not exist" "exists"

/-- Builder `isFile()` of `PathSchema`: filesystem-touching rule
(`fs.statSync(...).isFile()`, fail closed). -/
def PathSchema.isFile (s : AnySchema) : AnySchema :=
  s.refine
    (fun fs v => match v with | .str p => fs.statFile p | _ => false)
    "Must be a file" "isFile"

/-- Builder `isDirectory()` of `PathSchema`: filesystem-touching rule. -/
def PathSchema.isDirectory (s : AnySchema) : AnySchema :=
  s.refine
    (fun fs v => match v with | .str p => fs.statDir p | _ => false)
    "Must be a directory" "isDirectory"

/-- Builder `readable()` of `PathSchema`: filesystem-touching rule. -/
def PathSchema.readable (s : AnySchema) : AnySchema :=
  s.refine
    (fun fs v => match v with | .str p => fs.readOk p | _ => false)
    "Path is not readable" "readable"

/-- Builder `writable()` of `PathSchema`: filesystem-touching rule. -/
def PathSchema.writable (s : AnySchema) : AnySchema :=
  s.refine
    (fun fs v => match v with | .str p => fs.writeOk p | _ => false)
    "Path is not writable" "writable"

/-! ## Freezing and write rejection

`Object.freeze` freezes exactly the object it is applied to: its own
properties become non-writable, while objects stored in those properties are
untouched.  A write attempt targets the container addressed by all but the
last path segment and fails exactly when that container is frozen. -/

/-- Model of `Object.freeze(v)`: sets the frozen flag of the value itself;
nested values are untouched.  Freezing a primitive returns it unchanged. -/
def jsFreeze : JsVal → JsVal
  | .obj _ fields => .obj true fields
  | .arr _ elems => .arr true elems
  | v => v

/-- One segment of a property path: an object key or an array index. -/
inductive PathSeg where
  | key (k : String) : PathSeg
  | idx (n : Nat) : PathSeg

/-- Read one path segment. -/
def getSeg : JsVal → PathSeg → Option JsVal
  | .obj _ fields, .key k =>
    (fields.find? (fun kv => kv.1 = k)).map Prod.snd
  | .arr _ elems, .idx n => elems.get? n
  | _, _ => none

/-- Replace or append a field of an object's field list. -/
def writeField (fields : List (String × JsVal)) (k : String) (v : JsVal) :
    List (String × JsVal) :=
  if (fields.find? (fun kv => kv.1 = k)).isSome then
    fields.map (fun kv => if kv.1 = k then (kv.1, v) else kv)
  else fields ++ [(k, v)]

/-- Attempt a one-level property write; rejected (`none`) when the container
is frozen or is a primitive. -/
def setSeg : JsVal → PathSeg → JsVal → Option JsVal
  | .obj fr fields, .key k, v =>
    if fr then none else some (.obj false (writeField fields k v))
  | .arr fr elems, .idx n, v =>
    if fr then none else if n < elems.length then some (.arr false (elems.set n v)) else none
  | _, _, _ => none

/-- Rebuild a container with one child replaced.  No frozen check: mutating a
value stored inside a container is not a write to the container itself. -/
def replaceChild : JsVal → PathSeg → JsVal → Option JsVal
  | .obj fr fields, .key k, c => some (.obj fr (writeField fields k c))
  | .arr fr elems, .idx n, c => some (.arr fr (elems.set n c))
  | _, _, _ => none

/-- Attempt the write `target.path = v`: descend along the path and perform
the final one-level write, which fails exactly when the addressed container
is frozen (or the path is invalid). -/
def jsWrite : JsVal → List PathSeg → JsVal → Option JsVal
  | _, [], _ => none
  | target, [seg], v => setSeg target seg v
  | target, seg :: seg2 :: rest, v =>
    match getSeg target seg with
    | none => none
    | some child =>
      match jsWrite child (seg2 :: rest) v with
      | none => none
      | some c2 => replaceChild target seg c2

/-! ## Entry-point orchestration (`create-env.ts`) -/

/-- Failure modes of `createEnv` in its default `onError:"throw"` mode: the
`EnvValidationError` carrying the error list, or the defensive "Validation
succeeded but no data returned" throw. -/
inductive CreateEnvFailure where
  | validation (errors : List ValidationError) : CreateEnvFailure
  | noData : CreateEnvFailure

/-- The source function `cloneSchemaWithOptional` (`create-env.ts` lines
80-88): a clone of the field schema with `_def.isOptional` replaced. -/
def cloneSchemaWithOptional (schema : AnySchema) (isOptional : Bool) : AnySchema :=
  { schema with _def := { schema._def with isOptional } }

/-- Property read `modifiedSchema[key]` on a schema object (first matching
entry of the association list; schema objects have unique keys). -/
def lookupField (key : String) : List (String × AnySchema) → Option AnySchema
  | [] => none
  | kv :: rest => if kv.1 = key then some kv.2 else lookupField key rest

/-- Property write `modifiedSchema[key] = v` on a schema object. -/
def setField (key : String) (v : AnySchema) (l : List (String × AnySchema)) :
    List (String × AnySchema) :=
  l.map (fun kv => if kv.1 = key then (kv.1, v) else kv)

/-- One iteration of the `requireInProduction` loop (`create-env.ts` lines
115-122): flip `isOptional` to `false` for the listed field, only when it
exists and is optional. -/
def requireStep (acc : List (String × AnySchema)) (key : String) :
    List (String × AnySchema) :=
  match lookupField key acc with
  | some fieldSchema =>
    if fieldSchema._def.isOptional then
      setField key (cloneSchemaWithOptional fieldSchema false) acc
    else acc
  | none => acc

/-- One iteration of the `optionalInDevelopment` loop (`create-env.ts` lines
125-132): flip `isOptional` to `true` for the listed field when it exists. -/
def devStep (acc : List (String × AnySchema)) (key : String) :
    List (String × AnySchema) :=
  match lookupField key acc with
  | some fieldSchema => setField key (cloneSchemaWithOptional fieldSchema true) acc
  | none => acc

/-- The source function `applyEnvironmentRules` (`create-env.ts` lines
93-135).  JavaScript truthiness notes: an empty `environment` string is
falsy; `requireInProduction?.length` is falsy for an absent or empty list. -/
def applyEnvironmentRules (schema : List (String × AnySchema))
    (options : EnvOptions) : List (String × AnySchema) :=
  match options.environment with
  | none => schema
  | some env =>
    if env = "" then schema
    else
      let isProduction := env == "production"
      let isDevelopment := env == "development" || env == "dev"
      if (isProduction && !(options.requireInProduction.getD []).isEmpty) ||
          (isDevelopment && !(options.optionalInDevelopment.getD []).isEmpty) then
        let s1 :=
          if isProduction then (options.requireInProduction.getD []).foldl requireStep schema
          else schema
        if isDevelopment then (options.optionalInDevelopment.getD []).foldl devStep s1
        else s1
      else schema

/-- Cross-field issue normalization (`create-env.ts` lines 213-221). -/
def normalizeCrossFieldIssue : CrossIssue → ValidationError
  | .msg m => createCrossFieldError m "_schema"
  | .detailed m v => createCrossFieldError m (v.getD "_schema")

/-- The source function `applyCrossFieldValidation` (`create-env.ts` lines
185-208).  A validator returning `undefined` and one returning an empty list
behave identically (both keep the successful result), so the callback is
modelled as returning a list of issues. -/
def applyCrossFieldValidation (result : ValidationResult)
    (validator : Option (JsVal → List CrossIssue)) : ValidationResult :=
  match validator with
  | none => result
  | some f =>
    if result.success = false then result
    else
      match result.data with
      | none => result
      | some d =>
        let errors := (f d).map normalizeCrossFieldIssue
        if errors.isEmpty then result
        else { success := false, data := none, errors := errors }

/-- The source function `createEnv` (`create-env.ts` lines 44-75) in its
default `onError:"throw"` mode, with the source mapping supplied explicitly
and no dotenv layering (with `options.dotenv` unset, `resolveSource` returns
the supplied source unchanged; dotenv file loading is I/O glue outside the
engine).  On success the data object is passed through `Object.freeze`. -/
def createEnv (fs : FsState) (schema : List (String × AnySchema))
    (source : String → Option String) (options : EnvOptions) :
    Except CreateEnvFailure JsVal :=
  let modifiedSchema := applyEnvironmentRules schema options
  let baseResult := validate fs modifiedSchema source options
  let result := applyCrossFieldValidation baseResult options.crossValidate
  if result.success = false then .error (.validation result.errors)
  else
    match result.data with
    | none => .error .noData
    | some d => .ok (jsFreeze d)

/-! ## Shared fixtures and helper lemmas -/

/-- A concrete filesystem snapshot on which every check fails (an empty
filesystem); used to instantiate theorems at concrete inputs. -/
def fsEmpty : FsState :=
  { accessOk := fun _ => false
    statFile := fun _ => false
    statDir := fun _ => false
    readOk := fun _ => false
    writeOk := fun _ => false }

/-- A concrete filesystem snapshot on which every check succeeds. -/
def fsFull : FsState :=
  { accessOk := fun _ => true
    statFile := fun _ => true
    statDir := fun _ => true
    readOk := fun _ => true
    writeOk := fun _ => true }

/-- Outcome of the engine loop for a single schema entry: lookup key, source
read and `validateVariable`, exactly as in `engine.ts` lines 90-94. -/
def fieldOutcome (fs : FsState) (source : String → Option String)
    (options : EnvOptions) (kv : String × AnySchema) : VarOutcome :=
  validateVariable fs (envKeyOf options.prefixStr kv.1)
    (source (envKeyOf options.prefixStr kv.1)) kv.2

/-- The error contributed by a schema entry, if any, with the `variable`
reassignment of `engine.ts` line 98. -/
def errOf (fs : FsState) (source : String → Option String)
    (options : EnvOptions) (kv : String × AnySchema) : Option ValidationError :=
  match fieldOutcome fs source options kv with
  | .err e =>
    some { e with varName := if options.stripFlag then kv.1 else envKeyOf options.prefixStr kv.1 }
  | .ok _ => none

/-- The data entry contributed by a schema entry, if any (`engine.ts` lines
100-104; the output key is the bare schema key). -/
def dataOf (fs : FsState) (source : String → Option String)
    (options : EnvOptions) (kv : String × AnySchema) : Option (String × JsVal) :=
  match fieldOutcome fs source options kv with
  | .ok v => some (kv.1, v)
  | .err _ => none

theorem validateFields_fst (fs : FsState) (source : String → Option String)
    (options : EnvOptions) (schema : List (String × AnySchema)) :
    (validateFields fs source options schema).1 =
      schema.filterMap (errOf fs source options) := by
  induction schema with
  | nil => rfl
  | cons kv rest ih =>
    obtain ⟨key, fieldSchema⟩ := kv
    simp only [validateFields, List.filterMap_cons]
    cases h : validateVariable fs (envKeyOf options.prefixStr key)
        (source (envKeyOf options.prefixStr key)) fieldSchema with
    | ok v => simp [errOf, fieldOutcome, h, ih]
    | err e => simp [errOf, fieldOutcome, h, ih]

theorem validateFields_snd (fs : FsState) (source : String → Option String)
    (options : EnvOptions) (schema : List (String × AnySchema)) :
    (validateFields fs source options schema).2 =
      schema.filterMap (dataOf fs source options) := by
  induction schema with
  | nil => rfl
  | cons kv rest ih =>
    obtain ⟨key, fieldSchema⟩ := kv
    simp only [validateFields, List.filterMap_cons]
    cases h : validateVariable fs (envKeyOf options.prefixStr key)
        (source (envKeyOf options.prefixStr key)) fieldSchema with
    | ok v => simp [dataOf, fieldOutcome, h, ih]
    | err e => simp [dataOf, fieldOutcome, h, ih]

theorem runRules_ok_eq (fs : FsState) (name : String) (schema : AnySchema)
    (raw : String) (v w : JsVal) (rules : List ValidationRule)
    (h : runRules fs name schema raw v rules = .ok w) : w = v := by
  induction rules with
  | nil => cases h; rfl
  | cons r rest ih =>
    unfold runRules at h
    split at h
    · exact ih h
    · cases h

theorem runRules_err_eq (fs : FsState) (name : String) (schema : AnySchema)
    (raw : String) (v : JsVal) (rules : List ValidationRule) (e : ValidationError)
    (h : runRules fs name schema raw v rules = .err e) :
    ∃ r : ValidationRule, e = createValueError name schema raw r.message := by
  induction rules with
  | nil => cases h
  | cons r rest ih =>
    unfold runRules at h
    split at h
    · exact ih h
    · cases h; exact ⟨r, rfl⟩

theorem resolveAbsent_err (name : String) (schema : AnySchema) (wasMissing : Bool)
    (e : ValidationError) (h : resolveAbsent name schema wasMissing = .err e) :
    (e = createMissingError name schema ∧ wasMissing = true) ∨
      (e = createEmptyError name schema ∧ wasMissing = false) := by
  unfold resolveAbsent at h
  split at h
  · cases h
  · split at h
    · split at h
      · cases h
        exact Or.inl ⟨rfl, by assumption⟩
      · cases h
        rename_i hw
        exact Or.inr ⟨rfl, by simp only [Bool.not_eq_true] at hw; exact hw⟩
    · cases h

/-! ## Claim C10 -/

/-- Claim C10: for every field schema `s` and value `v`, `s.default(v)`
yields a schema with `defaultValue = v` and `isOptional = false` — `default()`
always clears the optional flag — so `.optional().default(v)` is
non-optional, while `.default(v).optional()` is simultaneously optional and
carries the default value. -/
theorem c10_default_clears_optional (s : AnySchema) (v : JsVal) :
    (s.default v)._def.defaultValue = v ∧
    (s.default v)._def.isOptional = false ∧
    ((s.optional).default v)._def.isOptional = false ∧
    ((s.optional).default v)._def.defaultValue = v ∧
    ((s.default v).optional)._def.isOptional = true ∧
    ((s.default v).optional)._def.defaultValue = v :=
  ⟨rfl, rfl, rfl, rfl, rfl, rfl⟩

/-! ## Claim C2 -/

/-- Counterexample to claim C2: a field schema that is optional and carries a
default value (built as `.default("fallback").optional()`) resolves an absent
input to `undefined`, not to the default — the engine checks `isOptional`
before `defaultValue` (`engine.ts` lines 38-45), so the claim's "regardless
of the schema's isOptional flag" fails. -/
theorem c2_optional_beats_default_cex :
    validateVariable fsEmpty "A" none ((stringSchema.default (.str "fallback")).optional) =
      .ok .undef ∧
    ((stringSchema.default (.str "fallback")).optional)._def.defaultValue = .str "fallback" ∧
    JsVal.undef ≠ JsVal.str "fallback" :=
  ⟨rfl, rfl, by simp⟩

/-- Claim C2 as amended: for every field schema with a default value that is
NOT optional, per-field resolution of an absent or empty input yields the
default value and no error.  (When `isOptional` is true the optional rule
wins and the field resolves to `undefined` instead.) -/
theorem c2_default_resolution (fs : FsState) (name : String) (value : Option String)
    (schema : AnySchema)
    (hopt : schema._def.isOptional = false)
    (hdef : schema._def.defaultValue ≠ .undef)
    (hval : value = none ∨ value = some "") :
    validateVariable fs name value schema = .ok schema._def.defaultValue := by
  have habs : ∀ w, resolveAbsent name schema w = .ok schema._def.defaultValue := by
    intro w
    unfold resolveAbsent
    rw [hopt]
    cases hd : schema._def.defaultValue <;> simp_all
  rcases hval with rfl | rfl
  · exact habs true
  · exact habs false

/-- Witness for the amended claim C2 at a concrete input. -/
theorem c2_default_resolution_witness :
    (stringSchema.default (.str "x"))._def.isOptional = false ∧
    (stringSchema.default (.str "x"))._def.defaultValue ≠ .undef ∧
    validateVariable fsEmpty "A" none (stringSchema.default (.str "x")) =
      .ok ((stringSchema.default (.str "x"))._def.defaultValue) :=
  ⟨rfl, by simp [AnySchema.default, stringSchema],
    c2_default_resolution fsEmpty "A" none _ rfl
      (by simp [AnySchema.default, stringSchema]) (Or.inl rfl)⟩

/-! ## Claim C4 -/

/-- Secret field used by the claim C4 counterexample and its discussion: a
secret string with a minimum-length rule and an explicit example value. -/
def c4FieldSchema : AnySchema :=
  (StringSchema.minLength stringSchema 100).secret.withExample "sk-live-secret"

/-- Counterexample to claim C4: on a secret field, an `invalid_value` error
carries `received = "[REDACTED]"` but its `example` field holds the schema's
example value verbatim — `createValueError` (`validation/errors.ts` lines
234-251) redacts only `received`. -/
theorem c4_example_not_redacted_cex :
    validateVariable fsEmpty "API_KEY" (some "abc") c4FieldSchema =
      .err { varName := "API_KEY"
             reason := .invalid_value
             message := "Must be at least 100 characters"
             expected := "string, min 100 chars"
             received := some "[REDACTED]"
             exampleText := some "sk-live-secret"
             isSecret := true } ∧
    ("sk-live-secret" : String) ≠ "[REDACTED]" :=
  ⟨rfl, by decide⟩

/-- Claim C4 as amended: every error a secret field produces in
`validateVariable` has `isSecret = true`, its `received` value (when present)
redacted to the fixed placeholder `"[REDACTED]"` — in particular every
`invalid_type` or `invalid_value` error has `received = "[REDACTED]"` — while
its `example` value is carried unredacted (equal to the schema's
`getExample()`); example redaction happens in the reporters, which mask it
using the error's `isSecret` flag. -/
theorem c4_secret_received_redacted (fs : FsState) (name : String)
    (value : Option String) (schema : AnySchema) (e : ValidationError)
    (hsec : schema._def.metadata.isSecret = true)
    (h : validateVariable fs name value schema = .err e) :
    e.isSecret = true ∧
    e.exampleText = some schema.getExample ∧
    (e.received = none ∨ e.received = some "[REDACTED]") ∧
    ((e.reason = .invalid_type ∨ e.reason = .invalid_value) →
      e.received = some "[REDACTED]") := by
  unfold validateVariable at h
  split at h
  · rcases resolveAbsent_err _ _ _ _ h with ⟨rfl, _⟩ | ⟨rfl, _⟩ <;>
      simp [createMissingError, createEmptyError, hsec]
  · rcases resolveAbsent_err _ _ _ _ h with ⟨rfl, _⟩ | ⟨rfl, _⟩ <;>
      simp [createMissingError, createEmptyError, hsec]
  · split at h
    · cases h
      simp [createTypeError, hsec]
    · obtain ⟨r, rfl⟩ := runRules_err_eq _ _ _ _ _ _ _ h
      simp [createValueError, hsec]

/-- Witness for the amended claim C4 at a concrete input (a secret field
missing from the source). -/
theorem c4_secret_received_redacted_witness :
    (createMissingError "KEY" stringSchema.secret).isSecret = true ∧
    (createMissingError "KEY" stringSchema.secret).exampleText =
      some stringSchema.secret.getExample ∧
    ((createMissingError "KEY" stringSchema.secret).received = none ∨
      (createMissingError "KEY" stringSchema.secret).received = some "[REDACTED]") ∧
    (((createMissingError "KEY" stringSchema.secret).reason = .invalid_type ∨
        (createMissingError "KEY" stringSchema.secret).reason = .invalid_value) →
      (createMissingError "KEY" stringSchema.secret).received = some "[REDACTED]") :=
  c4_secret_received_redacted fsEmpty "KEY" none stringSchema.secret
    (createMissingError "KEY" stringSchema.secret) rfl rfl

/-! ## Claim C5 -/

/-- Claim C5 evaluated on the code: `e.duration().default("24h")` stores the
string `"24h"` verbatim (`BaseSchema.default` does not parse it), so with the
source entry absent the field resolves to the string `"24h"` and not to
`86400000` — even though the duration coercion itself maps `"24h"` to
`86400000`.  This contradicts the repository's own test "should accept string
defaults" (`tests/features.test.ts`), which expects `86400000`. -/
theorem c5_duration_default_not_parsed :
    (durationSchema.default (.str "24h"))._def.defaultValue = .str "24h" ∧
    validate fsEmpty [("EXPIRY", durationSchema.default (.str "24h"))]
        (fun _ => none) {} =
      { success := true
        data := some (.obj false [("EXPIRY", .str "24h")])
        errors := [] } ∧
    coerceDuration "24h" = .success (.num 86400000) ∧
    JsVal.str "24h" ≠ JsVal.num 86400000 := by
  refine ⟨rfl, rfl, ?_, by simp⟩
  show (if ((24 : ℤ) : ℚ) * 3600000 < 0 then CoercionResult.failure "Duration must be non-negative"
        else CoercionResult.success (.num (((24 : ℤ) : ℚ) * 3600000))) = _
  rw [if_neg (by norm_num)]
  norm_num

/-! ## Claim C1 -/

/-- Claim C1 evaluated on the code: with `strict: true` and an extra source
key `EXTRA` not covered by the schema, `validate` still succeeds with no
errors — the engine body (`validation/engine.ts` lines 78-112) never reads
`options.strict` or `options.strictIgnore`, so no `unknown`-reason error is
ever produced.  This contradicts the repository's own tests "fails on unknown
variables in strict mode" / "ignores unknown variables listed in
strictIgnore". -/
theorem c1_strict_mode_not_enforced :
    validate fsEmpty [("PORT", numberSchema)]
        (fun k => if k = "PORT" then some "3000"
                  else if k = "EXTRA" then some "x" else none)
        { strict := true } =
      { success := true
        data := some (.obj false [("PORT", .num 3000)])
        errors := [] } ∧
    validate fsEmpty [("PORT", numberSchema)]
        (fun k => if k = "PORT" then some "3000"
                  else if k = "EXTRA" then some "x" else none)
        { strict := true, strictIgnore := ["EXTRA"] } =
      { success := true
        data := some (.obj false [("PORT", .num 3000)])
        errors := [] } :=
  ⟨rfl, rfl⟩

theorem validate_success_iff (fs : FsState) (schema : List (String × AnySchema))
    (source : String → Option String) (options : EnvOptions) :
    (validate fs schema source options).success = true ↔
      (validate fs schema source options).errors = [] := by
  cases hl : (validateFields fs source options schema).1 with
  | nil => simp [validate, hl]
  | cons e rest => simp [validate, hl]

theorem validate_errors_eq (fs : FsState) (schema : List (String × AnySchema))
    (source : String → Option String) (options : EnvOptions) :
    (validate fs schema source options).errors =
      schema.filterMap (errOf fs source options) := by
  have hf := validateFields_fst fs source options schema
  cases hl : (validateFields fs source options schema).1 with
  | nil => rw [hl] at hf; simp [validate, hl, ← hf]
  | cons e rest => rw [hl] at hf; simp [validate, hl, ← hf]

theorem validate_success_data (fs : FsState) (schema : List (String × AnySchema))
    (source : String → Option String) (options : EnvOptions)
    (h : (validate fs schema source options).success = true) :
    (validate fs schema source options).data =
      some (.obj false (schema.filterMap (dataOf fs source options))) := by
  have hs := validateFields_snd fs source options schema
  cases hl : (validateFields fs source options schema).1 with
  | nil => simp [validate, hl, ← hs]
  | cons e rest => simp [validate, hl] at h

theorem all_ok_of_no_errors (fs : FsState) (source : String → Option String)
    (options : EnvOptions) (schema : List (String × AnySchema))
    (h : schema.filterMap (errOf fs source options) = []) :
    ∀ kv ∈ schema, ∃ v, fieldOutcome fs source options kv = .ok v := by
  rw [List.filterMap_eq_nil_iff] at h
  intro kv hkv
  have := h kv hkv
  unfold errOf at this
  cases ho : fieldOutcome fs source options kv with
  | ok v => exact ⟨v, rfl⟩
  | err e => rw [ho] at this; cases this

theorem filterMap_dataOf_keys (fs : FsState) (source : String → Option String)
    (options : EnvOptions) (schema : List (String × AnySchema))
    (h : ∀ kv ∈ schema, ∃ v, fieldOutcome fs source options kv = .ok v) :
    (schema.filterMap (dataOf fs source options)).map Prod.fst =
      schema.map Prod.fst := by
  induction schema with
  | nil => rfl
  | cons kv rest ih =>
    obtain ⟨v, hv⟩ := h kv (List.mem_cons_self kv rest)
    have : dataOf fs source options kv = some (kv.1, v) := by
      unfold dataOf; rw [hv]
    simp only [List.filterMap_cons, this, List.map_cons]
    rw [ih (fun kv' hkv' => h kv' (List.mem_cons_of_mem kv hkv'))]

theorem mem_filterMap_dataOf (fs : FsState) (source : String → Option String)
    (options : EnvOptions) (schema : List (String × AnySchema))
    (p : String × JsVal) (hp : p ∈ schema.filterMap (dataOf fs source options)) :
    ∃ kv ∈ schema, kv.1 = p.1 ∧ fieldOutcome fs source options kv = .ok p.2 := by
  rw [List.mem_filterMap] at hp
  obtain ⟨kv, hkv, hmap⟩ := hp
  refine ⟨kv, hkv, ?_⟩
  cases ho : fieldOutcome fs source options kv with
  | ok v =>
    have hd : dataOf fs source options kv = some (kv.1, v) := by
      unfold dataOf; rw [ho]
    rw [hd] at hmap
    injection hmap with h2
    subst h2
    exact ⟨rfl, rfl⟩
  | err e =>
    have hd : dataOf fs source options kv = none := by
      unfold dataOf; rw [ho]
    rw [hd] at hmap
    cases hmap

theorem resolveAbsent_ok (name : String) (schema : AnySchema) (wasMissing : Bool)
    (v : JsVal) (h : resolveAbsent name schema wasMissing = .ok v) :
    (schema._def.isOptional = true ∧ v = .undef) ∨
      (schema._def.isOptional = false ∧ v = schema._def.defaultValue ∧ v ≠ .undef) := by
  unfold resolveAbsent at h
  split at h
  · cases h
    exact Or.inl ⟨by assumption, rfl⟩
  · rename_i hno
    split at h
    · split at h <;> cases h
    · cases h
      rename_i heq
      exact Or.inr ⟨by simpa using hno, rfl, heq⟩

theorem validateVariable_ok_undef (fs : FsState) (name : String)
    (value : Option String) (schema : AnySchema)
    (hco : ∀ f raw v, schema._def.coerce f raw = .success v → v ≠ .undef)
    (h : validateVariable fs name value schema = .ok .undef) :
    schema._def.isOptional = true ∧ (value = none ∨ value = some "") := by
  unfold validateVariable at h
  split at h
  · rcases resolveAbsent_ok _ _ _ _ h with ⟨hopt, _⟩ | ⟨_, _, hne⟩
    · exact ⟨hopt, Or.inl rfl⟩
    · exact absurd rfl hne
  · rcases resolveAbsent_ok _ _ _ _ h with ⟨hopt, _⟩ | ⟨_, _, hne⟩
    · exact ⟨hopt, Or.inr rfl⟩
    · exact absurd rfl hne
  · split at h
    · cases h
    · rename_i v hv
      have hvu := runRules_ok_eq _ _ _ _ _ _ _ h
      rw [← hvu] at hv
      exact (hco _ _ _ hv rfl).elim

/-! ## Claim C6 -/

/-- Counterexample to the "undefined only for optional-and-absent" part of
claim C6: an optional field whose source entry is PRESENT but equal to the
empty string also resolves to `undefined` (the engine treats absent and empty
alike, `engine.ts` line 36). -/
theorem c6_undefined_for_present_empty_cex :
    validate fsEmpty [("A", stringSchema.optional)]
        (fun k => if k = "A" then some "" else none) {} =
      { success := true
        data := some (.obj false [("A", .undef)])
        errors := [] } ∧
    (fun k => if k = "A" then some "" else none) "A" = some "" ∧
    some ("" : String) ≠ none :=
  ⟨rfl, rfl, by simp⟩

/-- Claim C6 as amended: `validate` never short-circuits across fields — its
error list is exactly the per-field errors collected over the whole schema in
schema order; the result succeeds exactly when that list is empty, in which
case the data object carries one key per schema field, and a field's value is
`undefined` only when the field is optional and its source entry is absent or
the empty string.  (The hypothesis states that no field's coercion can
produce `undefined`, which holds for every schema variant.) -/
theorem c6_error_aggregation (fs : FsState) (schema : List (String × AnySchema))
    (source : String → Option String) (options : EnvOptions)
    (hco : ∀ kv ∈ schema, ∀ f raw v, kv.2._def.coerce f raw = .success v → v ≠ .undef) :
    ((validate fs schema source options).success = true ↔
      (validate fs schema source options).errors = []) ∧
    (validate fs schema source options).errors =
      schema.filterMap (errOf fs source options) ∧
    ((validate fs schema source options).success = true →
      (validate fs schema source options).data =
        some (.obj false (schema.filterMap (dataOf fs source options))) ∧
      (schema.filterMap (dataOf fs source options)).map Prod.fst =
        schema.map Prod.fst ∧
      ∀ p ∈ schema.filterMap (dataOf fs source options), p.2 = JsVal.undef →
        ∃ kv ∈ schema, kv.1 = p.1 ∧ kv.2._def.isOptional = true ∧
          (source (envKeyOf options.prefixStr kv.1) = none ∨
            source (envKeyOf options.prefixStr kv.1) = some "")) := by
  refine ⟨validate_success_iff fs schema source options,
    validate_errors_eq fs schema source options, fun hs => ?_⟩
  have herr : schema.filterMap (errOf fs source options) = [] := by
    rw [← validate_errors_eq fs schema source options]
    exact (validate_success_iff fs schema source options).mp hs
  have hok := all_ok_of_no_errors fs source options schema herr
  refine ⟨validate_success_data fs schema source options hs,
    filterMap_dataOf_keys fs source options schema hok, fun p hp hu => ?_⟩
  obtain ⟨kv, hkv, hk1, ho⟩ := mem_filterMap_dataOf fs source options schema p hp
  rw [hu] at ho
  have := validateVariable_ok_undef fs (envKeyOf options.prefixStr kv.1)
    (source (envKeyOf options.prefixStr kv.1)) kv.2 (hco kv hkv) ho
  exact ⟨kv, hkv, hk1, this.1, this.2⟩

/-- Witness for the amended claim C6 at a concrete input. -/
theorem c6_error_aggregation_witness :
    ((validate fsEmpty [("PORT", stringSchema)]
        (fun k => if k = "PORT" then some "x" else none) {}).success = true ↔
      (validate fsEmpty [("PORT", stringSchema)]
        (fun k => if k = "PORT" then some "x" else none) {}).errors = []) ∧
    (validate fsEmpty [("PORT", stringSchema)]
        (fun k => if k = "PORT" then some "x" else none) {}).errors =
      [("PORT", stringSchema)].filterMap
        (errOf fsEmpty (fun k => if k = "PORT" then some "x" else none) {}) ∧
    ((validate fsEmpty [("PORT", stringSchema)]
        (fun k => if k = "PORT" then some "x" else none) {}).success = true →
      (validate fsEmpty [("PORT", stringSchema)]
          (fun k => if k = "PORT" then some "x" else none) {}).data =
        some (.obj false ([("PORT", stringSchema)].filterMap
          (dataOf fsEmpty (fun k => if k = "PORT" then some "x" else none) {}))) ∧
      ([("PORT", stringSchema)].filterMap
          (dataOf fsEmpty (fun k => if k = "PORT" then some "x" else none) {})).map
        Prod.fst = [("PORT", stringSchema)].map Prod.fst ∧
      ∀ p ∈ [("PORT", stringSchema)].filterMap
          (dataOf fsEmpty (fun k => if k = "PORT" then some "x" else none) {}),
        p.2 = JsVal.undef →
        ∃ kv ∈ [("PORT", stringSchema)], kv.1 = p.1 ∧
          kv.2._def.isOptional = true ∧
          ((fun k => if k = "PORT" then some "x" else none)
              (envKeyOf ({} : EnvOptions).prefixStr kv.1) = none ∨
            (fun k => if k = "PORT" then some "x" else none)
              (envKeyOf ({} : EnvOptions).prefixStr kv.1) = some "")) :=
  c6_error_aggregation fsEmpty [("PORT", stringSchema)]
    (fun k => if k = "PORT" then some "x" else none) {}
    (by
      intro kv hkv f raw v h
      simp only [List.mem_singleton] at hkv
      subst hkv
      injection h with h2
      rw [← h2]
      simp)

/-! ## Claim C3 -/

/-- Counterexample to claim C3: with a prefix set and `stripPrefix` false,
the successfully resolved field still appears under the BARE schema field
name (`PORT`), not under the prefixed lookup key (`APP_PORT`) — the engine's
output-key computation (`engine.ts` line 102) reads
`stripPrefix && prefix ? key : key`, whose branches are identical.  The
repository's own test "applies prefix to variable names" expects exactly this
bare-key behaviour. -/
theorem c3_data_key_not_prefixed_cex :
    validate fsEmpty [("PORT", numberSchema)]
        (fun k => if k = "APP_PORT" then some "8080" else none)
        { prefixStr := some "APP_", stripFlag := false } =
      { success := true
        data := some (.obj false [("PORT", .num 8080)])
        errors := [] } ∧
    ("PORT" : String) ≠ "APP_PORT" :=
  ⟨rfl, by decide⟩

/-- Claim C3 as amended: successfully resolved fields always appear in the
data object under the bare schema field name, whatever `prefix` and
`stripPrefix` are; only error variable names follow the stripping rule
(the bare field name when `stripPrefix` is true, the full lookup key
otherwise). -/
theorem c3_output_and_error_naming (fs : FsState)
    (schema : List (String × AnySchema)) (source : String → Option String)
    (options : EnvOptions) :
    ((validate fs schema source options).success = true →
      (validate fs schema source options).data =
        some (.obj false (schema.filterMap (dataOf fs source options))) ∧
      (schema.filterMap (dataOf fs source options)).map Prod.fst =
        schema.map Prod.fst) ∧
    (∀ e ∈ (validate fs schema source options).errors, ∃ kv ∈ schema,
      e.varName = if options.stripFlag then kv.1
                  else envKeyOf options.prefixStr kv.1) := by
  constructor
  · intro hs
    have herr : schema.filterMap (errOf fs source options) = [] := by
      rw [← validate_errors_eq fs schema source options]
      exact (validate_success_iff fs schema source options).mp hs
    exact ⟨validate_success_data fs schema source options hs,
      filterMap_dataOf_keys fs source options schema
        (all_ok_of_no_errors fs source options schema herr)⟩
  · intro e he
    rw [validate_errors_eq fs schema source options, List.mem_filterMap] at he
    obtain ⟨kv, hkv, hmap⟩ := he
    refine ⟨kv, hkv, ?_⟩
    unfold errOf at hmap
    cases ho : fieldOutcome fs source options kv with
    | ok v => rw [ho] at hmap; cases hmap
    | err e0 =>
      rw [ho] at hmap
      injection hmap with h2
      rw [← h2]

/-- Witness for the amended claim C3 at a concrete input (prefix set,
`stripPrefix` true). -/
theorem c3_output_and_error_naming_witness :
    ((validate fsEmpty [("PORT", stringSchema)]
        (fun k => if k = "APP_PORT" then some "8080" else none)
        { prefixStr := some "APP_", stripFlag := true }).success = true →
      (validate fsEmpty [("PORT", stringSchema)]
          (fun k => if k = "APP_PORT" then some "8080" else none)
          { prefixStr := some "APP_", stripFlag := true }).data =
        some (.obj false ([("PORT", stringSchema)].filterMap
          (dataOf fsEmpty (fun k => if k = "APP_PORT" then some "8080" else none)
            { prefixStr := some "APP_", stripFlag := true }))) ∧
      ([("PORT", stringSchema)].filterMap
          (dataOf fsEmpty (fun k => if k = "APP_PORT" then some "8080" else none)
            { prefixStr := some "APP_", stripFlag := true })).map Prod.fst =
        [("PORT", stringSchema)].map Prod.fst) ∧
    (∀ e ∈ (validate fsEmpty [("PORT", stringSchema)]
        (fun k => if k = "APP_PORT" then some "8080" else none)
        { prefixStr := some "APP_", stripFlag := true }).errors,
      ∃ kv ∈ [("PORT", stringSchema)],
        e.varName = if ({ prefixStr := some "APP_", stripFlag := true } :
            EnvOptions).stripFlag then kv.1
          else envKeyOf ({ prefixStr := some "APP_", stripFlag := true } :
            EnvOptions).prefixStr kv.1) :=
  c3_output_and_error_naming fsEmpty [("PORT", stringSchema)]
    (fun k => if k = "APP_PORT" then some "8080" else none)
    { prefixStr := some "APP_", stripFlag := true }

/-! ## Claim C9 -/

/-- A rule is filesystem-independent when its predicate does not depend on
the filesystem snapshot.  Every rule except the `path` schema's
`exists`/`isFile`/`isDirectory`/`readable`/`writable` refinements is of this
form (their predicates ignore the `FsState` argument). -/
def RuleFsIndependent (r : ValidationRule) : Prop :=
  ∀ f1 f2 v, r.validate f1 v = r.validate f2 v

/-- A field schema carries no filesystem-touching refinement: all its rules
and its coercion are independent of the filesystem snapshot. -/
def SchemaFsIndependent (s : AnySchema) : Prop :=
  (∀ r ∈ s._def.rules, RuleFsIndependent r) ∧
  ∀ f1 f2 raw, s._def.coerce f1 raw = s._def.coerce f2 raw

theorem runRules_fsInd (name : String) (schema : AnySchema) (raw : String)
    (v : JsVal) (rules : List ValidationRule)
    (h : ∀ r ∈ rules, RuleFsIndependent r) (f1 f2 : FsState) :
    runRules f1 name schema raw v rules = runRules f2 name schema raw v rules := by
  induction rules with
  | nil => rfl
  | cons r rest ih =>
    unfold runRules
    rw [h r (List.mem_cons_self r rest) f1 f2 v]
    by_cases hv : r.validate f2 v
    · simp [hv, ih (fun r' hr' => h r' (List.mem_cons_of_mem r hr'))]
    · simp [hv]

theorem validateVariable_fsInd (name : String) (value : Option String)
    (s : AnySchema) (hins : SchemaFsIndependent s) (f1 f2 : FsState) :
    validateVariable f1 name value s = validateVariable f2 name value s := by
  unfold validateVariable
  split
  · rfl
  · rfl
  · rename_i raw hne
    rw [hins.2 f1 f2 raw]
    cases hc : s._def.coerce f2 raw with
    | failure msg => rfl
    | success v => exact runRules_fsInd name s raw v s._def.rules hins.1 f1 f2

/-- Claim C9: `validate` is deterministic — two runs on identical schema,
source and options agree — provided no field schema carries a
filesystem-touching path refinement; the runs are modelled as evaluations
against two arbitrary filesystem snapshots (the only ambient state the
engine consults), so the result is one and the same value. -/
theorem c9_validate_deterministic (schema : List (String × AnySchema))
    (source : String → Option String) (options : EnvOptions)
    (h : ∀ kv ∈ schema, SchemaFsIndependent kv.2) (f1 f2 : FsState) :
    validate f1 schema source options = validate f2 schema source options := by
  have hf : validateFields f1 source options schema =
      validateFields f2 source options schema := by
    induction schema with
    | nil => rfl
    | cons kv rest ih =>
      obtain ⟨key, fieldSchema⟩ := kv
      simp only [validateFields]
      rw [validateVariable_fsInd (envKeyOf options.prefixStr key)
        (source (envKeyOf options.prefixStr key)) fieldSchema
        (h (key, fieldSchema) (List.mem_cons_self _ rest)) f1 f2]
      rw [ih (fun kv' h' => h kv' (List.mem_cons_of_mem _ h'))]
  unfold validate
  rw [hf]

/-- Witness for claim C9 at a concrete input: a schema with a pure rule
evaluated against two different filesystem snapshots. -/
theorem c9_validate_deterministic_witness :
    validate fsEmpty [("NAME", StringSchema.nonEmpty stringSchema)]
      (fun k => if k = "NAME" then some "hello" else none) {} =
    validate fsFull [("NAME", StringSchema.nonEmpty stringSchema)]
      (fun k => if k = "NAME" then some "hello" else none) {} :=
  c9_validate_deterministic [("NAME", StringSchema.nonEmpty stringSchema)]
    (fun k => if k = "NAME" then some "hello" else none) {}
    (by
      intro kv hkv
      simp only [List.mem_singleton] at hkv
      subst hkv
      constructor
      · intro r hr
        simp only [StringSchema.nonEmpty, AnySchema.refine, stringSchema,
          List.nil_append, List.mem_singleton] at hr
        subst hr
        intro f1 f2 v
        rfl
      · intro f1 f2 raw
        rfl)
    fsEmpty fsFull

/-! ## Claim C7 -/

theorem cross_success_data (r : ValidationResult)
    (v : Option (JsVal → List CrossIssue)) (d : JsVal)
    (h : (applyCrossFieldValidation r v).data = some d) : r.data = some d := by
  simp only [applyCrossFieldValidation] at h
  split at h
  · exact h
  · split at h
    · exact h
    · split at h
      · exact h
      · split at h
        · exact h
        · cases h

theorem validate_data_shape (fs : FsState) (schema : List (String × AnySchema))
    (source : String → Option String) (options : EnvOptions) (d : JsVal)
    (h : (validate fs schema source options).data = some d) :
    ∃ fields, d = JsVal.obj false fields := by
  cases hl : (validateFields fs source options schema).1 with
  | nil =>
    simp only [validate, hl] at h
    exact ⟨_, (Option.some.inj h).symm⟩
  | cons e rest => simp [validate, hl] at h

/-- Counterexample to claim C7: `createEnv` returns the data object through a
SHALLOW `Object.freeze` (`create-env.ts` line 68), so a write into a nested
coerced array inside the returned object succeeds — not every write attempt
fails. -/
theorem c7_nested_write_allowed_cex :
    createEnv fsEmpty [("TAGS", arraySchema stringSchema)]
        (fun k => if k = "TAGS" then some "a,b" else none) {} =
      .ok (.obj true [("TAGS", .arr false [.str "a", .str "b"])]) ∧
    jsWrite (.obj true [("TAGS", .arr false [.str "a", .str "b"])])
        [.key "TAGS", .idx 0] (.str "z") =
      some (.obj true [("TAGS", .arr false [.str "z", .str "b"])]) :=
  ⟨rfl, rfl⟩

/-- Claim C7 as amended: on success `createEnv` returns the validated data
object in a shallow-frozen form — the returned object itself is frozen, so
every write to a top-level key is rejected — while nested values (such as
coerced arrays and parsed JSON structures) are not frozen and remain
writable. -/
theorem c7_top_level_frozen (fs : FsState) (schema : List (String × AnySchema))
    (source : String → Option String) (options : EnvOptions) (d : JsVal)
    (h : createEnv fs schema source options = .ok d) :
    (∃ fields, d = JsVal.obj true fields) ∧
    ∀ k v, jsWrite d [.key k] v = none := by
  simp only [createEnv] at h
  split at h
  · cases h
  · split at h
    · cases h
    · rename_i d0 hd0
      cases h
      obtain ⟨fields, rfl⟩ := validate_data_shape _ _ _ _ _
        (cross_success_data _ _ _ hd0)
      exact ⟨⟨fields, rfl⟩, fun k v => rfl⟩

/-- Witness for the amended claim C7 at a concrete input. -/
theorem c7_top_level_frozen_witness :
    (∃ fields, (JsVal.obj true [("TAGS", .arr false [.str "a", .str "b"])]) =
      JsVal.obj true fields) ∧
    ∀ k v, jsWrite (JsVal.obj true [("TAGS", .arr false [.str "a", .str "b"])])
      [.key k] v = none :=
  c7_top_level_frozen fsEmpty [("TAGS", arraySchema stringSchema)]
    (fun k => if k = "TAGS" then some "a,b" else none) {}
    (.obj true [("TAGS", .arr false [.str "a", .str "b"])]) rfl

/-! ## Claim C8 -/

theorem lookupField_setField (k key : String) (v : AnySchema)
    (l : List (String × AnySchema)) :
    lookupField k (setField key v l) =
      if k = key then (lookupField k l).map (fun _ => v)
      else lookupField k l := by
  induction l with
  | nil => simp [setField, lookupField]
  | cons kv rest ih =>
    simp only [setField, List.map_cons] at ih ⊢
    by_cases h2 : kv.1 = k
    · by_cases h1 : kv.1 = key
      · have hk : k = key := by rw [← h2, h1]
        simp [lookupField, h1, h2, hk]
      · have hk : ¬ k = key := fun hkk => h1 (by rw [h2, hkk])
        simp [lookupField, h1, h2, hk]
    · by_cases h1 : kv.1 = key
      · have hkk : ¬ key = k := fun h => h2 (h1.trans h)
        have hk2 : ¬ k = key := fun h => hkk h.symm
        simp [lookupField, h1, h2, ih, hkk, hk2]
      · simp [lookupField, h1, h2, ih]

theorem lookupField_requireStep (l : List (String × AnySchema)) (key k : String) :
    lookupField k (requireStep l key) =
      (lookupField k l).map
        (fun f => if k = key ∧ f._def.isOptional then cloneSchemaWithOptional f false
                  else f) := by
  unfold requireStep
  cases hl : lookupField key l with
  | none =>
    dsimp only
    by_cases hk : k = key
    · subst hk; rw [hl]; simp
    · cases hx : lookupField k l <;> simp [hk, hx]
  | some f =>
    dsimp only
    by_cases hopt : f._def.isOptional
    · rw [if_pos hopt, lookupField_setField]
      by_cases hk : k = key
      · subst hk; rw [hl]; simp [hopt]
      · rw [if_neg hk]; cases hx : lookupField k l <;> simp [hk, hx]
    · rw [if_neg hopt]
      by_cases hk : k = key
      · subst hk; rw [hl]; simp [hopt]
      · cases hx : lookupField k l <;> simp [hk, hx]

theorem lookupField_devStep (l : List (String × AnySchema)) (key k : String) :
    lookupField k (devStep l key) =
      (lookupField k l).map
        (fun f => if k = key then cloneSchemaWithOptional f true else f) := by
  unfold devStep
  cases hl : lookupField key l with
  | none =>
    dsimp only
    by_cases hk : k = key
    · subst hk; rw [hl]; simp
    · cases hx : lookupField k l <;> simp [hk, hx]
  | some f =>
    dsimp only
    rw [lookupField_setField]
    by_cases hk : k = key
    · subst hk; rw [hl]; simp
    · rw [if_neg hk]; cases hx : lookupField k l <;> simp [hk, hx]

theorem lookupField_foldl_require (keys : List String)
    (l : List (String × AnySchema)) (k : String) :
    lookupField k (keys.foldl requireStep l) =
      (lookupField k l).map
        (fun f => if k ∈ keys ∧ f._def.isOptional then cloneSchemaWithOptional f false
                  else f) := by
  induction keys generalizing l with
  | nil => cases hx : lookupField k l <;> simp [hx]
  | cons key keys ih =>
    rw [List.foldl_cons, ih, lookupField_requireStep]
    cases hv : lookupField k l with
    | none => simp
    | some f =>
      simp only [Option.map_some']
      by_cases hk : k = key
      · subst hk
        by_cases hopt : f._def.isOptional
        · simp [hopt, cloneSchemaWithOptional]
        · simp [hopt, List.mem_cons]
      · simp [hk, List.mem_cons]

theorem lookupField_foldl_dev (keys : List String)
    (l : List (String × AnySchema)) (k : String) :
    lookupField k (keys.foldl devStep l) =
      (lookupField k l).map
        (fun f => if k ∈ keys then cloneSchemaWithOptional f true else f) := by
  induction keys generalizing l with
  | nil => cases hx : lookupField k l <;> simp [hx]
  | cons key keys ih =>
    rw [List.foldl_cons, ih, lookupField_devStep]
    cases hv : lookupField k l with
    | none => simp
    | some f =>
      simp only [Option.map_some']
      by_cases hk : k = key
      · subst hk
        by_cases hmem : k ∈ keys
        · simp [hmem, cloneSchemaWithOptional]
        · simp [hmem, List.mem_cons]
      · simp [hk, List.mem_cons]

/-- Concrete options used by the claim C8 witness (production side). -/
def c8ProdOpts : EnvOptions :=
  { environment := some "production", requireInProduction := some ["API_KEY"] }

/-- Concrete options used by the claim C8 witness (development side). -/
def c8DevOpts : EnvOptions :=
  { environment := some "development", optionalInDevelopment := some ["DEBUG"] }

/-- Claim C8: `createEnv`/`validateEnv` validate against the derived schema of
`applyEnvironmentRules`: with environment `"production"`, each field listed in
`requireInProduction` that was optional has `isOptional` flipped to `false`
(non-optional listed fields and unlisted fields are untouched); with
environment `"development"` or `"dev"`, each field listed in
`optionalInDevelopment` has `isOptional` flipped to `true`.  The pure
embedding makes non-mutation of the caller's schema inherent: the derived
schema is a new value computed from the old one, whose listed entries are
clones with the flag replaced. -/
theorem c8_environment_rules (schema : List (String × AnySchema))
    (options : EnvOptions) :
    (options.environment = some "production" →
      ∀ k f, lookupField k schema = some f →
        lookupField k (applyEnvironmentRules schema options) =
          some (if k ∈ options.requireInProduction.getD [] ∧ f._def.isOptional
                then cloneSchemaWithOptional f false else f)) ∧
    (∀ env, options.environment = some env → (env = "development" ∨ env = "dev") →
      ∀ k f, lookupField k schema = some f →
        lookupField k (applyEnvironmentRules schema options) =
          some (if k ∈ options.optionalInDevelopment.getD []
                then cloneSchemaWithOptional f true else f)) := by
  constructor
  · intro henv k f hf
    simp only [applyEnvironmentRules, henv]
    rw [if_neg (by decide)]
    have h1 : (("production" : String) == "production") = true := rfl
    have h2 : ((("production" : String) == "development") ||
        (("production" : String) == "dev")) = false := rfl
    simp only [h1, h2, Bool.true_and, Bool.false_and, Bool.or_false,
      Bool.false_eq_true, if_false, if_true]
    by_cases hK : (options.requireInProduction.getD []).isEmpty
    · have hKe : options.requireInProduction.getD [] = [] :=
        List.isEmpty_iff.mp hK
      simp [hK, hKe, hf]
    · simp only [hK, Bool.not_false, if_true]
      rw [lookupField_foldl_require, hf]
      rfl
  · intro env henv hdev k f hf
    have h2 : (env == "production") = false := by
      rcases hdev with rfl | rfl <;> rfl
    have h3 : ((env == "development") || (env == "dev")) = true := by
      rcases hdev with rfl | rfl <;> rfl
    have h0 : ¬ env = "" := by
      rcases hdev with rfl | rfl <;> decide
    simp only [applyEnvironmentRules, henv]
    rw [if_neg h0]
    simp only [h2, h3, Bool.true_and, Bool.false_and, Bool.false_or,
      Bool.false_eq_true, if_false, if_true]
    by_cases hK : (options.optionalInDevelopment.getD []).isEmpty
    · have hKe : options.optionalInDevelopment.getD [] = [] :=
        List.isEmpty_iff.mp hK
      simp [hK, hKe, hf]
    · simp only [hK, Bool.not_false, if_true]
      rw [lookupField_foldl_dev, hf]
      rfl

/-- Witness for claim C8 at a concrete input: an optional `API_KEY` under
`environment:"production"` with `requireInProduction:["API_KEY"]`, and a
required `DEBUG` under `environment:"development"` with
`optionalInDevelopment:["DEBUG"]`. -/
theorem c8_environment_rules_witness :
    lookupField "API_KEY"
      (applyEnvironmentRules [("API_KEY", stringSchema.optional)] c8ProdOpts) =
      some (if "API_KEY" ∈ c8ProdOpts.requireInProduction.getD [] ∧
              (stringSchema.optional)._def.isOptional
            then cloneSchemaWithOptional stringSchema.optional false
            else stringSchema.optional) ∧
    lookupField "DEBUG"
      (applyEnvironmentRules [("DEBUG", stringSchema)] c8DevOpts) =
      some (if "DEBUG" ∈ c8DevOpts.optionalInDevelopment.getD []
            then cloneSchemaWithOptional stringSchema true else stringSchema) :=
  ⟨(c8_environment_rules [("API_KEY", stringSchema.optional)] c8ProdOpts).1 rfl
      "API_KEY" stringSchema.optional rfl,
    (c8_environment_rules [("DEBUG", stringSchema)] c8DevOpts).2 "development" rfl
      (Or.inl rfl) "DEBUG" stringSchema rfl⟩

end EnvProof
